import Mathlib

/-!
Verification development for the wallet-analysis crawler
(src/wallet_analysis.py).  The Python source is shallowly embedded:

* JSON values produced by json.loads are modelled by the mutual
  inductive Json / JsonList / JsonFields (objects keep insertion order;
  json.loads guarantees unique keys, so first-key lookup is faithful).
* The Chrome driver is replaced by explicit oracles: the performance
  log is a list of LogEntry, and Network.getResponseBody is a function
  from the request id to a FetchResult.
* Python statements that raise and are caught by an except that skips
  the entry are modelled by the corresponding Option being none.
-/

mutual

inductive Json where
  | null
  | bool (b : Bool)
  | num (n : Int)
  | str (s : String)
  | arr (elems : JsonList)
  | obj (fields : JsonFields)

inductive JsonList where
  | nil
  | cons (head : Json) (tail : JsonList)

inductive JsonFields where
  | nil
  | cons (key : String) (val : Json) (tail : JsonFields)

end

def JsonList.toList : JsonList → List Json
  | .nil => []
  | .cons x xs => x :: xs.toList

def JsonList.ofList : List Json → JsonList
  | [] => .nil
  | x :: xs => .cons x (JsonList.ofList xs)

/-- Lookup of a key in a JSON object, as Python dict subscription on the
value returned by json.loads (keys are unique, so first match is the match). -/
def JsonFields.find : JsonFields → String → Option Json
  | .nil, _ => none
  | .cons k v tl, key => if k == key then some v else tl.find key

def JsonFields.keys : JsonFields → List String
  | .nil => []
  | .cons k _ tl => k :: tl.keys

/-- Python d[key] for a json.loads value: a KeyError (key absent) and a
TypeError (not a dict) are both raised and, in the source, caught by the
enclosing except which skips the entry; both are modelled as none. -/
def Json.getKey : Json → String → Option Json
  | .obj fs, key => fs.find key
  | _, _ => none

/-- Does the JSON array contain this exact string?  Python membership
`pat in list` compares pat with each element; a str only equals a str. -/
def JsonList.anyIsStr : JsonList → String → Bool
  | .nil, _ => false
  | .cons (Json.str s) tl, pat => s == pat || tl.anyIsStr pat
  | .cons _ tl, pat => tl.anyIsStr pat

def JsonFields.anyKey : JsonFields → String → Bool
  | .nil, _ => false
  | .cons k _ tl, pat => k == pat || tl.anyKey pat

/-- Is pat a prefix of s (on character lists)? -/
def charsStartWith : List Char → List Char → Bool
  | [], _ => true
  | _ :: _, [] => false
  | a :: as, b :: bs => a == b && charsStartWith as bs

/-- Does pat occur as a contiguous substring of s?  (Python `pat in s`
for nonempty pat; both endpoint patterns in the source are nonempty.) -/
def subOccurs : List Char → List Char → Bool
  | pat, [] => pat.isEmpty
  | pat, c :: rest => charsStartWith pat (c :: rest) || subOccurs pat rest

def strContains (s pat : String) : Bool := subOccurs pat.data s.data

/-- Python `pat in url` where url is an arbitrary json.loads value:
substring test on a str, element membership on a list, key membership
on a dict; on any other value `in` raises TypeError (modelled none),
which the source-level except catches by skipping the entry. -/
def pyContains (pat : String) : Json → Option Bool
  | .str s => some (strContains s pat)
  | .arr xs => some (xs.anyIsStr pat)
  | .obj fs => some (fs.anyKey pat)
  | _ => none

/-- Python iteration over a json.loads value, as consumed by
list.extend: array elements for a list, characters for a str, keys for
a dict; other values are not iterable (TypeError, modelled none). -/
def pyIter : Json → Option (List Json)
  | .arr xs => some xs.toList
  | .str s => some (s.data.map (fun c => Json.str (String.mk [c])))
  | .obj fs => some (fs.keys.map Json.str)
  | _ => none

/-- One entry of driver.get_log('performance'):
noMessageKey - the dict has no 'message' key (line 247 skips it);
message none - entry['message'] is not valid JSON (json.loads raises,
caught by the per-entry except);
message (some j) - json.loads(entry['message']) = j. -/
inductive LogEntry where
  | noMessageKey
  | message (parsed : Option Json)

/-- Outcome of driver.execute_cdp_cmd('Network.getResponseBody', requestId):
raised - the CDP call raised; noBody - it returned a dict without a
'body' key (lines 265/276 then do nothing); withBody p - a 'body' was
returned and p is the json.loads result of it (none if it raised). -/
inductive FetchResult where
  | raised
  | noBody
  | withBody (parsed : Option Json)

/-- The two accumulators of extract_network_data (lines 242-243):
wallet_summary_data starts as Python None (JSON null) and
wallet_holdings_data starts as the empty list. -/
structure ExtractState where
  wallet_summary : Json
  wallet_holdings : List Json

def summaryPat : String := "/api/v1/wallet_stat/sol/"
def holdingsPat : String := "/api/v1/wallet_holdings"

/-- Lines 246-258: the guards before the URL branch.  The entry passes
iff it has a parseable 'message' whose message.method is exactly the
string 'Network.responseReceived' and whose message.params carries a
requestId and a response.url; every failing guard (continue or a raised
KeyError/TypeError caught by the per-entry except) skips the entry. -/
def entryResponse : LogEntry → Option (Json × Json)
  | .noMessageKey => none
  | .message none => none
  | .message (some msg) =>
    match msg.getKey "message" with
    | none => none
    | some inner =>
      match inner.getKey "method" with
      | some (Json.str m) =>
        if m == "Network.responseReceived" then
          match inner.getKey "params" with
          | none => none
          | some params =>
            match params.getKey "requestId",
                  (params.getKey "response").bind (fun r => r.getKey "url") with
            | some rid, some url => some (rid, url)
            | _, _ => none
        else none
      | _ => none

/-- Lines 264-266 and 275-277: fetch the response body by request id and
parse it; some body iff the CDP call returned a 'body' that json.loads
accepted.  Any failure is caught by the inner except of that branch. -/
def fetchBody (getBody : Json → FetchResult) (rid : Json) : Option Json :=
  match getBody rid with
  | .withBody (some body) => some body
  | _ => none

/-- Line 266: json.loads(response['body'])['data'] for the summary branch. -/
def fetchJsonData (getBody : Json → FetchResult) (rid : Json) : Option Json :=
  (fetchBody getBody rid).bind (fun body => body.getKey "data")

/-- Lines 277-278: json.loads(response['body'])['data']['holdings'],
iterated by list.extend, for the holdings branch. -/
def fetchHoldingsElems (getBody : Json → FetchResult) (rid : Json) : Option (List Json) :=
  (((fetchBody getBody rid).bind (fun body => body.getKey "data")).bind
      (fun d => d.getKey "holdings")).bind pyIter

/-- Lines 260-281: the URL branch of the loop body.  The summary pattern
is tested first; the holdings pattern only in the elif.  A branch whose
fetch/parse/lookup fails leaves the state unchanged (its inner except
only logs); a TypeError raised by `in` itself skips the entry. -/
def processUrl (getBody : Json → FetchResult) (st : ExtractState)
    (rid url : Json) : ExtractState :=
  match pyContains summaryPat url with
  | none => st
  | some true =>
    match fetchJsonData getBody rid with
    | some d => { st with wallet_summary := d }
    | none => st
  | some false =>
    match pyContains holdingsPat url with
    | some true =>
      match fetchHoldingsElems getBody rid with
      | some xs => { st with wallet_holdings := st.wallet_holdings ++ xs }
      | none => st
    | _ => st

/-- One iteration of the for-loop of extract_network_data (lines 245-283). -/
def processEntry (getBody : Json → FetchResult) (st : ExtractState)
    (e : LogEntry) : ExtractState :=
  match entryResponse e with
  | none => st
  | some (rid, url) => processUrl getBody st rid url

/-- extract_network_data (lines 231-288): fold the per-entry step over
the captured performance log, starting from None / []. -/
def extract_network_data (getBody : Json → FetchResult)
    (logs : List LogEntry) : ExtractState :=
  logs.foldl (processEntry getBody) ⟨Json.null, []⟩

/-- Result of analyze_wallet for one identifier: the extracted dict
(keys wallet_summary / wallet_holdings) or an error dict. -/
inductive AnalysisResult where
  | ok (extracted : ExtractState)
  | error (msg : String)

/-- What the driver did for one identifier: navigation succeeded and
left these trace entries and this body oracle; navigation returned
False (navigate_to_wallet_page catches its own exceptions); or an
exception reached the analyze_wallet boundary with this message. -/
inductive NavOutcome where
  | ok (logs : List LogEntry) (getBody : Json → FetchResult)
  | navFailed
  | raised (msg : String)

/-- analyze_wallet (lines 290-310). -/
def analyze_wallet : NavOutcome → AnalysisResult
  | .ok logs getBody => .ok (extract_network_data getBody logs)
  | .navFailed => .error "Failed to navigate to wallet page"
  | .raised m => .error m

/-- Python dict assignment d[k] = v on an insertion-ordered dict:
overwrite in place if the key exists, else append. -/
def dictInsert (d : List (String × AnalysisResult)) (k : String)
    (v : AnalysisResult) : List (String × AnalysisResult) :=
  if d.any (fun kv => kv.1 == k) then
    d.map (fun kv => if kv.1 == k then (k, v) else kv)
  else d ++ [(k, v)]

/-- Lines 339-340: the per-identifier loop building all_results. -/
def runBatch (env : String → NavOutcome) (addrs : List String) :
    List (String × AnalysisResult) :=
  addrs.foldl (fun acc a => dictInsert acc a (analyze_wallet (env a))) []

/-- Lines 328-329: a single string is wrapped into a one-element list. -/
def normalizeAddresses : Sum String (List String) → List String
  | .inl s => [s]
  | .inr l => l

/-- wallet_analysis (lines 312-373) as the BatchResult it returns.
session = none models setup_driver raising (SessionInitError): the
outer except catches it, the loop never runs, and the function falls
through to return the still-empty all_results. -/
def wallet_analysis (session : Option (String → NavOutcome))
    (input : Sum String (List String)) : List (String × AnalysisResult) :=
  match session with
  | none => []
  | some env => runBatch env (normalizeAddresses input)

example : wallet_analysis none (Sum.inr ["a", "b"]) = [] := rfl

example :
    wallet_analysis (some (fun _ => NavOutcome.navFailed)) (Sum.inl "a") =
      [("a", AnalysisResult.error "Failed to navigate to wallet page")] := rfl

/-! ## Per-entry classifiers

These declarative views of one loop iteration are what the claims are
stated against; the lemmas below prove that processEntry realizes them. -/

/-- The summary assignment an entry performs, if any: some d iff the
entry passes the guards, its URL matches the summary pattern, and the
body fetch, JSON parse and ['data'] lookup all succeed with value d. -/
def summaryUpdate (getBody : Json → FetchResult) (e : LogEntry) : Option Json :=
  match entryResponse e with
  | none => none
  | some (rid, url) =>
    match pyContains summaryPat url with
    | some true => fetchJsonData getBody rid
    | _ => none

/-- The holdings elements an entry appends, if any: some xs iff the
entry passes the guards, its URL does not match the summary pattern but
matches the holdings pattern, and fetch/parse/['data']['holdings']
all succeed with an iterable value whose elements are xs. -/
def holdingsUpdate (getBody : Json → FetchResult) (e : LogEntry) : Option (List Json) :=
  match entryResponse e with
  | none => none
  | some (rid, url) =>
    match pyContains summaryPat url, pyContains holdingsPat url with
    | some false, some true => fetchHoldingsElems getBody rid
    | _, _ => none

/-- The entry passes the guards and its URL matches the summary pattern. -/
def entrySummaryMatch (e : LogEntry) : Bool :=
  match entryResponse e with
  | some (_, url) =>
    match pyContains summaryPat url with
    | some true => true
    | _ => false
  | none => false

/-- The entry passes the guards and its URL matches the holdings pattern. -/
def entryHoldingsMatch (e : LogEntry) : Bool :=
  match entryResponse e with
  | some (_, url) =>
    match pyContains holdingsPat url with
    | some true => true
    | _ => false
  | none => false

theorem processEntry_summary (getBody : Json → FetchResult)
    (st : ExtractState) (e : LogEntry) :
    (processEntry getBody st e).wallet_summary =
      (summaryUpdate getBody e).getD st.wallet_summary := by
  unfold processEntry summaryUpdate
  cases h : entryResponse e with
  | none => rfl
  | some p =>
    obtain ⟨rid, url⟩ := p
    dsimp only
    unfold processUrl
    cases hs : pyContains summaryPat url with
    | none => rfl
    | some b =>
      cases b with
      | true =>
        dsimp only
        cases hf : fetchJsonData getBody rid <;> rfl
      | false =>
        dsimp only
        cases hh : pyContains holdingsPat url with
        | none => rfl
        | some b2 =>
          cases b2 with
          | true =>
            dsimp only
            cases hf : fetchHoldingsElems getBody rid <;> rfl
          | false => rfl

theorem processEntry_holdings (getBody : Json → FetchResult)
    (st : ExtractState) (e : LogEntry) :
    (processEntry getBody st e).wallet_holdings =
      st.wallet_holdings ++ (holdingsUpdate getBody e).getD [] := by
  unfold processEntry holdingsUpdate
  cases h : entryResponse e with
  | none => simp
  | some p =>
    obtain ⟨rid, url⟩ := p
    dsimp only
    unfold processUrl
    cases hs : pyContains summaryPat url with
    | none => simp
    | some b =>
      cases b with
      | true =>
        dsimp only
        cases hf : fetchJsonData getBody rid <;> simp
      | false =>
        dsimp only
        cases hh : pyContains holdingsPat url with
        | none => simp
        | some b2 =>
          cases b2 with
          | true =>
            dsimp only
            cases hf : fetchHoldingsElems getBody rid <;> simp
          | false => simp

theorem processEntry_inert (getBody : Json → FetchResult)
    (st : ExtractState) (e : LogEntry)
    (h₁ : summaryUpdate getBody e = none)
    (h₂ : holdingsUpdate getBody e = none) :
    processEntry getBody st e = st := by
  have hs := processEntry_summary getBody st e
  have hh := processEntry_holdings getBody st e
  rw [h₁] at hs
  rw [h₂] at hh
  cases hp : processEntry getBody st e with
  | mk a b =>
    rw [hp] at hs hh
    cases st
    simp_all

theorem extract_foldl_summary (getBody : Json → FetchResult)
    (logs : List LogEntry) (st : ExtractState) :
    (logs.foldl (processEntry getBody) st).wallet_summary =
      (logs.filterMap (summaryUpdate getBody)).getLastD st.wallet_summary := by
  induction logs generalizing st with
  | nil => rfl
  | cons e rest ih =>
    rw [List.foldl_cons, ih, List.filterMap_cons]
    cases h : summaryUpdate getBody e with
    | none => rw [processEntry_summary, h]; rfl
    | some d =>
      rw [processEntry_summary, h, List.getLastD_cons]
      rfl

theorem noMatch_summaryUpdate (getBody : Json → FetchResult) (e : LogEntry)
    (h : entrySummaryMatch e = false) : summaryUpdate getBody e = none := by
  unfold entrySummaryMatch at h
  unfold summaryUpdate
  cases he : entryResponse e with
  | none => rfl
  | some p =>
    obtain ⟨rid, url⟩ := p
    rw [he] at h
    dsimp only at h ⊢
    cases hs : pyContains summaryPat url with
    | none => rfl
    | some b =>
      cases b with
      | true => rw [hs] at h; simp at h
      | false => rfl

theorem noMatch_holdingsUpdate (getBody : Json → FetchResult) (e : LogEntry)
    (h : entryHoldingsMatch e = false) : holdingsUpdate getBody e = none := by
  unfold entryHoldingsMatch at h
  unfold holdingsUpdate
  cases he : entryResponse e with
  | none => rfl
  | some p =>
    obtain ⟨rid, url⟩ := p
    rw [he] at h
    dsimp only at h ⊢
    cases hh : pyContains holdingsPat url with
    | none =>
      cases hs : pyContains summaryPat url <;> try rfl
      rename_i b
      cases b <;> rfl
    | some b =>
      cases b with
      | true => rw [hh] at h; simp at h
      | false =>
        cases hs : pyContains summaryPat url <;> try rfl
        rename_i b2
        cases b2 <;> rfl

theorem extract_foldl_holdings (getBody : Json → FetchResult)
    (logs : List LogEntry) (st : ExtractState) :
    (logs.foldl (processEntry getBody) st).wallet_holdings =
      st.wallet_holdings ++ (logs.filterMap (holdingsUpdate getBody)).flatten := by
  induction logs generalizing st with
  | nil => simp
  | cons e rest ih =>
    rw [List.foldl_cons, ih, List.filterMap_cons]
    cases h : holdingsUpdate getBody e with
    | none =>
      rw [processEntry_holdings, h]
      simp
    | some xs =>
      rw [processEntry_holdings, h]
      simp

/-! ## Concrete fixtures used by the witnesses -/

/-- A well-formed Network.responseReceived trace entry carrying the
given requestId and response url. -/
def mkEntry (rid url : Json) : LogEntry :=
  LogEntry.message (some (Json.obj (JsonFields.cons "message"
    (Json.obj (JsonFields.cons "method" (Json.str "Network.responseReceived")
      (JsonFields.cons "params" (Json.obj (JsonFields.cons "requestId" rid
        (JsonFields.cons "response"
          (Json.obj (JsonFields.cons "url" url JsonFields.nil))
          JsonFields.nil)))
        JsonFields.nil)))
    JsonFields.nil)))

/-- A body oracle: request id "s" yields a summary body, "h" yields a
holdings body with two elements, everything else raises. -/
def oracleW : Json → FetchResult := fun rid =>
  match rid with
  | Json.str "s" => FetchResult.withBody (some (Json.obj (JsonFields.cons "data"
      (Json.obj (JsonFields.cons "pnl" (Json.num 7) JsonFields.nil))
      JsonFields.nil)))
  | Json.str "h" => FetchResult.withBody (some (Json.obj (JsonFields.cons "data"
      (Json.obj (JsonFields.cons "holdings"
        (Json.arr (JsonList.cons (Json.num 1)
          (JsonList.cons (Json.num 2) JsonList.nil)))
        JsonFields.nil))
      JsonFields.nil)))
  | _ => FetchResult.raised

def entryS : LogEntry :=
  mkEntry (Json.str "s") (Json.str "https://gmgn.ai/api/v1/wallet_stat/sol/abc")

def entryH : LogEntry :=
  mkEntry (Json.str "h") (Json.str "https://gmgn.ai/api/v1/wallet_holdings/sol/abc")

/-- Matches the summary pattern but its body fetch raises. -/
def entryBadFetch : LogEntry :=
  mkEntry (Json.str "x") (Json.str "https://gmgn.ai/api/v1/wallet_stat/sol/abc")

/-- entry['message'] was not valid JSON. -/
def entryNonJson : LogEntry := LogEntry.message none

/-- A completed response whose URL matches neither endpoint pattern. -/
def entryOther : LogEntry :=
  mkEntry (Json.str "o") (Json.str "https://gmgn.ai/api/v1/other")

/-- A response whose URL contains both path fragments at once. -/
def entryBoth : LogEntry :=
  mkEntry (Json.str "h")
    (Json.str "https://x/api/v1/wallet_stat/sol/api/v1/wallet_holdings")

example : (extract_network_data oracleW [entryH, entryH]).wallet_holdings =
    [Json.num 1, Json.num 2, Json.num 1, Json.num 2] := rfl

example : (extract_network_data oracleW [entryS, entryBadFetch]).wallet_summary =
    Json.obj (JsonFields.cons "pnl" (Json.num 7) JsonFields.nil) := rfl

example : (extract_network_data oracleW [entryBoth]).wallet_holdings = [] := rfl

/-! ## Claims C4, C5, C6, C7, C10 -/

/-- Claim C4: the final summary is the data object of the last trace
entry whose summary-pattern fetch, parse and data lookup succeeded
(last match wins, no merging), and a summary-matching entry whose
fetch or parse fails leaves a summary captured earlier unchanged. -/
theorem summary_last_match_wins (getBody : Json → FetchResult)
    (logs : List LogEntry) :
    ((extract_network_data getBody logs).wallet_summary =
        (logs.filterMap (summaryUpdate getBody)).getLastD Json.null)
    ∧ ∀ e, entrySummaryMatch e = true → summaryUpdate getBody e = none →
        (extract_network_data getBody (logs ++ [e])).wallet_summary =
          (extract_network_data getBody logs).wallet_summary := by
  constructor
  · exact extract_foldl_summary getBody logs ⟨Json.null, []⟩
  · intro e _ hnone
    have h2 := extract_foldl_summary getBody (logs ++ [e]) ⟨Json.null, []⟩
    have h3 := extract_foldl_summary getBody logs ⟨Json.null, []⟩
    unfold extract_network_data
    rw [h2, h3, List.filterMap_append]
    simp [List.filterMap_cons, hnone]

/-- Witness for C4: a summary captured from entryS survives a later
summary-matching entry whose body fetch raises. -/
theorem summary_last_match_wins_witness :
    (extract_network_data oracleW ([entryS] ++ [entryBadFetch])).wallet_summary =
      (extract_network_data oracleW [entryS]).wallet_summary :=
  (summary_last_match_wins oracleW [entryS]).2 entryBadFetch rfl rfl

/-- Claim C5: the final holdings list is the concatenation of the
data.holdings elements of every successfully fetched and parsed
holdings-pattern entry of the trace, in trace order. -/
theorem holdings_accumulate_all (getBody : Json → FetchResult)
    (logs : List LogEntry) :
    (extract_network_data getBody logs).wallet_holdings =
      (logs.filterMap (holdingsUpdate getBody)).flatten := by
  have h := extract_foldl_holdings getBody logs ⟨Json.null, []⟩
  simpa using h

/-- Claim C6: a malformed entry (one that performs neither a summary
assignment nor a holdings append: non-JSON message, missing keys, or a
failed body fetch) can be removed from anywhere in the trace without
changing the extraction result, so all well-formed entries around it
are still reflected. -/
theorem malformed_entry_isolated (getBody : Json → FetchResult)
    (l₁ l₂ : List LogEntry) (e : LogEntry)
    (h₁ : summaryUpdate getBody e = none)
    (h₂ : holdingsUpdate getBody e = none) :
    extract_network_data getBody (l₁ ++ e :: l₂) =
      extract_network_data getBody (l₁ ++ l₂) := by
  unfold extract_network_data
  rw [List.foldl_append, List.foldl_append, List.foldl_cons,
    processEntry_inert getBody _ e h₁ h₂]

/-- Witness for C6: a non-JSON entry between a good summary entry and a
good holdings entry does not disturb either. -/
theorem malformed_entry_isolated_witness :
    extract_network_data oracleW ([entryS] ++ entryNonJson :: [entryH]) =
      extract_network_data oracleW ([entryS] ++ [entryH]) :=
  malformed_entry_isolated oracleW [entryS] [entryH] entryNonJson rfl rfl

/-- Claim C7: if navigation succeeded and no trace entry matches either
endpoint pattern, analyze_wallet returns the success record with a null
summary and empty holdings, not an error record. -/
theorem no_match_yields_empty_success (getBody : Json → FetchResult)
    (logs : List LogEntry)
    (h : ∀ e ∈ logs, entrySummaryMatch e = false ∧ entryHoldingsMatch e = false) :
    analyze_wallet (NavOutcome.ok logs getBody) =
      AnalysisResult.ok ⟨Json.null, []⟩ := by
  have hs : logs.filterMap (summaryUpdate getBody) = [] := by
    rw [List.filterMap_eq_nil_iff]
    intro e he
    exact noMatch_summaryUpdate getBody e (h e he).1
  have hh : logs.filterMap (holdingsUpdate getBody) = [] := by
    rw [List.filterMap_eq_nil_iff]
    intro e he
    exact noMatch_holdingsUpdate getBody e (h e he).2
  have hext : extract_network_data getBody logs = ⟨Json.null, []⟩ := by
    have e1 := extract_foldl_summary getBody logs ⟨Json.null, []⟩
    have e2 := extract_foldl_holdings getBody logs ⟨Json.null, []⟩
    rw [hs] at e1
    rw [hh] at e2
    simp at e1 e2
    cases hx : extract_network_data getBody logs with
    | mk a b =>
      unfold extract_network_data at hx
      rw [hx] at e1 e2
      simp_all
  show AnalysisResult.ok (extract_network_data getBody logs) =
    AnalysisResult.ok ⟨Json.null, []⟩
  rw [hext]

/-- Witness for C7: one completed response with a non-matching URL. -/
theorem no_match_yields_empty_success_witness :
    analyze_wallet (NavOutcome.ok [entryOther] oracleW) =
      AnalysisResult.ok ⟨Json.null, []⟩ :=
  no_match_yields_empty_success oracleW [entryOther] (by
    intro e he
    rw [List.mem_singleton] at he
    subst he
    exact ⟨rfl, rfl⟩)

/-- Claim C10: the summary pattern is tested first and the holdings
pattern only otherwise, so an entry whose URL matches the summary
pattern (even if it also contains the holdings fragment) never touches
the holdings list and is consumed only as a summary response. -/
theorem summary_pattern_precedence (getBody : Json → FetchResult)
    (st : ExtractState) (e : LogEntry)
    (h : entrySummaryMatch e = true) :
    (processEntry getBody st e).wallet_holdings = st.wallet_holdings
    ∧ holdingsUpdate getBody e = none
    ∧ (processEntry getBody st e).wallet_summary =
        (summaryUpdate getBody e).getD st.wallet_summary := by
  have hnone : holdingsUpdate getBody e = none := by
    unfold entrySummaryMatch at h
    unfold holdingsUpdate
    cases he : entryResponse e with
    | none => rfl
    | some p =>
      obtain ⟨rid, url⟩ := p
      rw [he] at h
      dsimp only at h ⊢
      cases hs : pyContains summaryPat url with
      | none => rfl
      | some b =>
        cases b with
        | true => cases hh : pyContains holdingsPat url <;> rfl
        | false => rw [hs] at h; simp at h
  refine ⟨?_, hnone, processEntry_summary getBody st e⟩
  rw [processEntry_holdings getBody st e, hnone]
  simp

/-- Witness for C10: entryBoth contains both path fragments and its
request id would yield a valid holdings body, yet holdings stay empty
and the entry is consumed as a summary response. -/
theorem summary_pattern_precedence_witness :
    (processEntry oracleW ⟨Json.null, []⟩ entryBoth).wallet_holdings = []
    ∧ holdingsUpdate oracleW entryBoth = none
    ∧ (processEntry oracleW ⟨Json.null, []⟩ entryBoth).wallet_summary =
        (summaryUpdate oracleW entryBoth).getD Json.null :=
  summary_pattern_precedence oracleW ⟨Json.null, []⟩ entryBoth rfl

/-! ## Batch orchestration: claims C1, C2, C3 -/

/-- The JSON object json.dumps serializes for one per-identifier result:
the extracted dict with its two keys, or the error dict with one key. -/
def resultJson : AnalysisResult → Json
  | .ok st => Json.obj (JsonFields.cons "wallet_summary" st.wallet_summary
      (JsonFields.cons "wallet_holdings"
        (Json.arr (JsonList.ofList st.wallet_holdings)) JsonFields.nil))
  | .error m => Json.obj (JsonFields.cons "error" (Json.str m) JsonFields.nil)

/-- The value is an object of exactly the success form: a wallet_summary
field followed by a wallet_holdings array field and nothing else. -/
def isSuccessShape : Json → Bool
  | Json.obj (JsonFields.cons k1 _
      (JsonFields.cons k2 (Json.arr _) JsonFields.nil)) =>
    k1 == "wallet_summary" && k2 == "wallet_holdings"
  | _ => false

/-- The value is an object of exactly the error form: a single error
field holding a string. -/
def isErrorShape : Json → Bool
  | Json.obj (JsonFields.cons k (Json.str _) JsonFields.nil) => k == "error"
  | _ => false

theorem countP_map_replace (d : List (String × AnalysisResult)) (k : String)
    (v : AnalysisResult) (I : String) :
    (d.map (fun kv => if kv.1 == k then (k, v) else kv)).countP
        (fun kv => kv.1 == I) =
      d.countP (fun kv => kv.1 == I) := by
  induction d with
  | nil => rfl
  | cons kv d ih =>
    rw [List.map_cons, List.countP_cons, List.countP_cons, ih]
    by_cases hk : kv.1 == k
    · have : kv.1 = k := by exact beq_iff_eq.mp hk
      simp [hk, this]
    · simp [hk]

theorem dictInsert_countP_self (d : List (String × AnalysisResult))
    (k : String) (v : AnalysisResult)
    (h : d.countP (fun kv => kv.1 == k) ≤ 1) :
    (dictInsert d k v).countP (fun kv => kv.1 == k) = 1 := by
  unfold dictInsert
  by_cases ha : d.any (fun kv => kv.1 == k)
  · rw [if_pos ha, countP_map_replace]
    obtain ⟨x, hx, hxk⟩ := List.any_eq_true.mp ha
    have hpos : 0 < d.countP (fun kv => kv.1 == k) :=
      List.countP_pos_iff.mpr ⟨x, hx, hxk⟩
    omega
  · rw [if_neg ha, List.countP_append]
    have h0 : d.countP (fun kv => kv.1 == k) = 0 := by
      rw [List.countP_eq_zero]
      intro a haa hc
      exact ha (List.any_eq_true.mpr ⟨a, haa, hc⟩)
    simp [h0, List.countP_cons]

theorem dictInsert_countP_other (d : List (String × AnalysisResult))
    (k : String) (v : AnalysisResult) (I : String) (hIk : I ≠ k) :
    (dictInsert d k v).countP (fun kv => kv.1 == I) =
      d.countP (fun kv => kv.1 == I) := by
  unfold dictInsert
  by_cases ha : d.any (fun kv => kv.1 == k)
  · rw [if_pos ha, countP_map_replace]
  · rw [if_neg ha, List.countP_append]
    have : ((k, v).1 == I) = false := beq_eq_false_iff_ne.mpr (Ne.symm hIk)
    simp [List.countP_cons, this]

theorem dictInsert_mem (d : List (String × AnalysisResult)) (k : String)
    (v : AnalysisResult) (p : String × AnalysisResult)
    (hp : p ∈ dictInsert d k v) : p ∈ d ∨ p = (k, v) := by
  unfold dictInsert at hp
  by_cases ha : d.any (fun kv => kv.1 == k)
  · rw [if_pos ha] at hp
    obtain ⟨q, hq, hqp⟩ := List.mem_map.mp hp
    by_cases hqk : q.1 == k
    · right
      rw [if_pos hqk] at hqp
      exact hqp.symm
    · left
      rw [if_neg hqk] at hqp
      rw [← hqp]
      exact hq
  · rw [if_neg ha] at hp
    rcases List.mem_append.mp hp with h | h
    · exact Or.inl h
    · right
      simpa using h

theorem runBatch_countP (env : String → NavOutcome) (as : List String) :
    ∀ acc, (∀ J, acc.countP (fun kv => kv.1 == J) ≤ 1) →
    ∀ I, (as.foldl (fun a b => dictInsert a b (analyze_wallet (env b))) acc).countP
        (fun kv => kv.1 == I) =
      if I ∈ as then 1 else acc.countP (fun kv => kv.1 == I) := by
  induction as with
  | nil => intro acc _ I; simp
  | cons a rest ih =>
    intro acc hacc I
    rw [List.foldl_cons]
    have hacc' : ∀ J,
        (dictInsert acc a (analyze_wallet (env a))).countP
          (fun kv => kv.1 == J) ≤ 1 := by
      intro J
      by_cases hJ : J = a
      · subst hJ
        rw [dictInsert_countP_self acc J _ (hacc J)]
      · rw [dictInsert_countP_other acc a _ J hJ]
        exact hacc J
    rw [ih _ hacc' I]
    by_cases h1 : I ∈ rest
    · simp [h1, List.mem_cons]
    · by_cases h2 : I = a
      · subst h2
        simp [h1, List.mem_cons,
          dictInsert_countP_self acc I _ (hacc I)]
      · simp [h1, h2, List.mem_cons,
          dictInsert_countP_other acc a _ I h2]

theorem runBatch_values (env : String → NavOutcome) (as : List String) :
    ∀ acc, (∀ p ∈ acc, p.2 = analyze_wallet (env p.1)) →
    ∀ p ∈ as.foldl (fun a b => dictInsert a b (analyze_wallet (env b))) acc,
      p.2 = analyze_wallet (env p.1) := by
  induction as with
  | nil => intro acc hacc p hp; exact hacc p hp
  | cons a rest ih =>
    intro acc hacc p hp
    rw [List.foldl_cons] at hp
    refine ih _ ?_ p hp
    intro q hq
    rcases dictInsert_mem acc a _ q hq with h | h
    · exact hacc q h
    · rw [h]

/-- Claim C1: once a session exists, the batch result has exactly one
entry keyed by each requested identifier, and that entry serializes to
exactly one of the two record shapes: the success object (summary field
plus holdings array) or the error object - never both, never neither. -/
theorem batch_entry_unique_and_shaped (env : String → NavOutcome)
    (input : Sum String (List String)) (I : String)
    (hI : I ∈ normalizeAddresses input) :
    ((wallet_analysis (some env) input).countP (fun kv => kv.1 == I) = 1)
    ∧ ∃ r, (I, r) ∈ wallet_analysis (some env) input ∧
        ((isSuccessShape (resultJson r) = true ∧ isErrorShape (resultJson r) = false)
          ∨ (isErrorShape (resultJson r) = true ∧ isSuccessShape (resultJson r) = false)) := by
  have hc : (wallet_analysis (some env) input).countP (fun kv => kv.1 == I) = 1 := by
    show (runBatch env (normalizeAddresses input)).countP _ = 1
    unfold runBatch
    rw [runBatch_countP env _ [] (by intro J; simp) I]
    simp [hI]
  refine ⟨hc, ?_⟩
  have hpos : 0 < (wallet_analysis (some env) input).countP (fun kv => kv.1 == I) := by
    omega
  obtain ⟨p, hp, hpI⟩ := List.countP_pos_iff.mp hpos
  have hkey : p.1 = I := beq_iff_eq.mp hpI
  have hval : p.2 = analyze_wallet (env p.1) := by
    refine runBatch_values env (normalizeAddresses input) [] (by simp) p ?_
    show p ∈ runBatch env (normalizeAddresses input)
    exact hp
  refine ⟨p.2, ?_, ?_⟩
  · have hpe : (I, p.2) = p := by
      rw [← hkey]
    rw [hpe]
    exact hp
  · rw [hval]
    cases env p.1 with
    | ok logs getBody =>
      left
      constructor <;> simp [analyze_wallet, resultJson, isSuccessShape, isErrorShape]
    | navFailed =>
      right
      constructor <;> simp [analyze_wallet, resultJson, isSuccessShape, isErrorShape]
    | raised m =>
      right
      constructor <;> simp [analyze_wallet, resultJson, isSuccessShape, isErrorShape]

/-- A one-identifier environment whose navigation fails. -/
def envNav : String → NavOutcome := fun _ => NavOutcome.navFailed

/-- Witness for C1: the batch over the single identifier "a". -/
theorem batch_entry_unique_and_shaped_witness :
    ((wallet_analysis (some envNav) (Sum.inr ["a"])).countP
        (fun kv => kv.1 == "a") = 1)
    ∧ ∃ r, ("a", r) ∈ wallet_analysis (some envNav) (Sum.inr ["a"]) ∧
        ((isSuccessShape (resultJson r) = true ∧ isErrorShape (resultJson r) = false)
          ∨ (isErrorShape (resultJson r) = true ∧ isSuccessShape (resultJson r) = false)) :=
  batch_entry_unique_and_shaped envNav (Sum.inr ["a"]) "a" (by
    show "a" ∈ ["a"]
    exact List.mem_singleton.mpr rfl)

/-- Claim C2: in a batch [A, B, C] where B's pipeline raises, the result
keeps one entry per identifier: B carries the error record with the
raised message, while A and C carry their normal extraction results. -/
theorem batch_isolates_failure (env : String → NavOutcome) (A B C m : String)
    (hAB : A ≠ B) (hAC : A ≠ C) (hBC : B ≠ C)
    (logsA : List LogEntry) (fA : Json → FetchResult)
    (logsC : List LogEntry) (fC : Json → FetchResult)
    (hA : env A = NavOutcome.ok logsA fA)
    (hB : env B = NavOutcome.raised m)
    (hC : env C = NavOutcome.ok logsC fC) :
    wallet_analysis (some env) (Sum.inr [A, B, C]) =
      [(A, AnalysisResult.ok (extract_network_data fA logsA)),
       (B, AnalysisResult.error m),
       (C, AnalysisResult.ok (extract_network_data fC logsC))] := by
  have hab : (A == B) = false := beq_eq_false_iff_ne.mpr hAB
  have hac : (A == C) = false := beq_eq_false_iff_ne.mpr hAC
  have hbc : (B == C) = false := beq_eq_false_iff_ne.mpr hBC
  show runBatch env [A, B, C] = _
  unfold runBatch
  simp only [List.foldl_cons, List.foldl_nil]
  rw [hA, hB, hC]
  simp [dictInsert, analyze_wallet, hab, hac, hbc]

/-- A concrete environment in which only identifier "b" raises. -/
def envABC : String → NavOutcome := fun a =>
  if a == "b" then NavOutcome.raised "boom"
  else NavOutcome.ok [] (fun _ => FetchResult.raised)

/-- Witness for C2: batch ["a", "b", "c"] where "b" raises "boom". -/
theorem batch_isolates_failure_witness :
    wallet_analysis (some envABC) (Sum.inr ["a", "b", "c"]) =
      [("a", AnalysisResult.ok
          (extract_network_data (fun _ => FetchResult.raised) [])),
       ("b", AnalysisResult.error "boom"),
       ("c", AnalysisResult.ok
          (extract_network_data (fun _ => FetchResult.raised) []))] :=
  batch_isolates_failure envABC "a" "b" "c" "boom"
    (by decide) (by decide) (by decide)
    [] (fun _ => FetchResult.raised) [] (fun _ => FetchResult.raised)
    rfl rfl rfl

/-- Claim C3: when setup_driver raises (SessionInitError), the loop
never runs and wallet_analysis produces an empty batch result: no
per-identifier entry exists at all. -/
theorem session_init_failure_no_results (input : Sum String (List String)) :
    wallet_analysis none input = [] := rfl

/-! ## Onboarding controller: claim C8 -/

/-- The page as the onboarding controller observes it: whether the intro
modal close icon is present (find_elements returns a non-empty list),
whether the i-th Next lookup succeeds within its bounded wait, and
whether the Finish lookup succeeds within its bounded wait. -/
structure OnboardingPage where
  modalPresent : Bool
  nextFound : Nat → Bool
  finishFound : Bool

/-- The observable actions of complete_onboarding_flow: the modal probe
and click, the i-th Next wait and click, the Finish wait and click. -/
inductive ObStep where
  | modalCheck
  | modalClick
  | nextWait (i : Nat)
  | nextClick (i : Nat)
  | finishWait
  | finishClick
  deriving DecidableEq

/-- Lines 115-120: probe for the close icon and click it when present;
this phase has its own try/except and never affects the rest. -/
def modalSteps (p : OnboardingPage) : List ObStep :=
  ObStep.modalCheck :: (if p.modalPresent then [ObStep.modalClick] else [])

/-- Lines 124-131: the remaining iterations of the for-loop over the
three Next buttons, at attempt i with k iterations left.  A
WebDriverWait timeout raises TimeoutException, which only the try
around the whole loop catches - so a miss abandons the remaining
iterations (and the Finish step) and makes the function return False. -/
def nextSteps (p : OnboardingPage) : Nat → Nat → Bool × List ObStep
  | _, 0 => (true, [])
  | i, k + 1 =>
    if p.nextFound i then
      let r := nextSteps p (i + 1) k
      (r.1, ObStep.nextWait i :: ObStep.nextClick i :: r.2)
    else (false, [ObStep.nextWait i])

/-- Lines 133-136: find_and_click_element for the Finish button; its own
try catches a timeout, so absence yields only a False return value that
line 135 discards. -/
def finishSteps (p : OnboardingPage) : List ObStep :=
  ObStep.finishWait :: (if p.finishFound then [ObStep.finishClick] else [])

/-- complete_onboarding_flow (lines 104-141): the modal phase, then the
three-Next loop and the Finish attempt inside one try/except whose
except branch returns False. -/
def complete_onboarding_flow (p : OnboardingPage) : Bool × List ObStep :=
  let r := nextSteps p 0 3
  if r.1 then (true, modalSteps p ++ r.2 ++ finishSteps p)
  else (false, modalSteps p ++ r.2)

/-- Counterexample to claim C8: on a page where the first Next button
never appears, the controller does not advance to the later transitions:
the second Next step and the Finish step are never attempted (and the
flow reports failure), contradicting that every later onboarding step is
still attempted after a missed element. -/
theorem onboarding_counterexample :
    (complete_onboarding_flow ⟨false, fun _ => false, true⟩).1 = false
    ∧ ObStep.nextWait 1 ∉ (complete_onboarding_flow ⟨false, fun _ => false, true⟩).2
    ∧ ObStep.finishWait ∉ (complete_onboarding_flow ⟨false, fun _ => false, true⟩).2 := by
  decide

/-- Claim C8 as amended: missing modal or Finish elements are tolerated
(logged, flow still succeeds and attempts every step), and the
controller never raises; but a Next button that is not located within
the bounded wait aborts the remaining onboarding transitions: the flow
returns False and neither the later Next steps nor Finish is attempted. -/
theorem onboarding_best_effort_amended :
    (∀ p : OnboardingPage, (∀ i, i < 3 → p.nextFound i = true) →
      ((complete_onboarding_flow p).1 = true
        ∧ ObStep.finishWait ∈ (complete_onboarding_flow p).2
        ∧ ∀ i, i < 3 → ObStep.nextWait i ∈ (complete_onboarding_flow p).2))
    ∧ (∀ p : OnboardingPage, ∀ i, i < 3 →
        (∀ j, j < i → p.nextFound j = true) → p.nextFound i = false →
      ((complete_onboarding_flow p).1 = false
        ∧ ObStep.finishWait ∉ (complete_onboarding_flow p).2
        ∧ ∀ j, i < j → ObStep.nextWait j ∉ (complete_onboarding_flow p).2)) := by
  constructor
  · intro p h
    have h0 := h 0 (by omega)
    have h1 := h 1 (by omega)
    have h2 := h 2 (by omega)
    have hns : nextSteps p 0 3 =
        (true, [ObStep.nextWait 0, ObStep.nextClick 0, ObStep.nextWait 1,
          ObStep.nextClick 1, ObStep.nextWait 2, ObStep.nextClick 2]) := by
      simp [nextSteps, h0, h1, h2]
    have hf : complete_onboarding_flow p =
        (true, modalSteps p ++ [ObStep.nextWait 0, ObStep.nextClick 0,
          ObStep.nextWait 1, ObStep.nextClick 1, ObStep.nextWait 2,
          ObStep.nextClick 2] ++ finishSteps p) := by
      simp [complete_onboarding_flow, hns]
    rw [hf]
    refine ⟨rfl, ?_, ?_⟩
    · simp [finishSteps]
    · intro i hi
      interval_cases i <;> simp
  · intro p i hi hprev hfail
    interval_cases i
    · have hns : nextSteps p 0 3 = (false, [ObStep.nextWait 0]) := by
        simp [nextSteps, hfail]
      have hf : complete_onboarding_flow p =
          (false, modalSteps p ++ [ObStep.nextWait 0]) := by
        simp [complete_onboarding_flow, hns]
      rw [hf]
      refine ⟨rfl, ?_, ?_⟩
      · cases hm : p.modalPresent <;> simp [modalSteps, hm]
      · intro j hj
        cases hm : p.modalPresent <;> simp [modalSteps, hm] <;> omega
    · have hp0 := hprev 0 (by omega)
      have hns : nextSteps p 0 3 =
          (false, [ObStep.nextWait 0, ObStep.nextClick 0, ObStep.nextWait 1]) := by
        simp [nextSteps, hp0, hfail]
      have hf : complete_onboarding_flow p =
          (false, modalSteps p ++ [ObStep.nextWait 0, ObStep.nextClick 0,
            ObStep.nextWait 1]) := by
        simp [complete_onboarding_flow, hns]
      rw [hf]
      refine ⟨rfl, ?_, ?_⟩
      · cases hm : p.modalPresent <;> simp [modalSteps, hm]
      · intro j hj
        cases hm : p.modalPresent <;> simp [modalSteps, hm] <;> omega
    · have hp0 := hprev 0 (by omega)
      have hp1 := hprev 1 (by omega)
      have hns : nextSteps p 0 3 =
          (false, [ObStep.nextWait 0, ObStep.nextClick 0, ObStep.nextWait 1,
            ObStep.nextClick 1, ObStep.nextWait 2]) := by
        simp [nextSteps, hp0, hp1, hfail]
      have hf : complete_onboarding_flow p =
          (false, modalSteps p ++ [ObStep.nextWait 0, ObStep.nextClick 0,
            ObStep.nextWait 1, ObStep.nextClick 1, ObStep.nextWait 2]) := by
        simp [complete_onboarding_flow, hns]
      rw [hf]
      refine ⟨rfl, ?_, ?_⟩
      · cases hm : p.modalPresent <;> simp [modalSteps, hm]
      · intro j hj
        cases hm : p.modalPresent <;> simp [modalSteps, hm] <;> omega

/-- A page whose modal and Finish elements are present but whose second
Next button never appears. -/
def pageW : OnboardingPage := ⟨true, fun i => i == 0, true⟩

/-- Witness for the amended C8: on pageW the flow fails after the second
Next wait, and the Finish and third Next steps are never attempted. -/
theorem onboarding_best_effort_amended_witness :
    (complete_onboarding_flow pageW).1 = false
    ∧ ObStep.finishWait ∉ (complete_onboarding_flow pageW).2
    ∧ ObStep.nextWait 2 ∉ (complete_onboarding_flow pageW).2 := by
  have h := onboarding_best_effort_amended.2 pageW 1 (by omega)
    (fun j hj => by
      have hj0 : j = 0 := by omega
      rw [hj0]
      rfl) rfl
  exact ⟨h.1, h.2.1, h.2.2 2 (by omega)⟩

/-! ## Output serialization: claim C9

json.dumps is modelled character-for-character for the values the
program emits: renderPy is the compact form (item separator ", ",
key separator ": "), renderI is the indent=2 form.  Escapes cover the
quote, backslash and the common control characters; the \uXXXX escape
of other control and non-ASCII characters is elided, which leaves the
whitespace structure of the output unchanged.  stripAux deletes JSON
whitespace outside string literals; both renderings strip to the same
whitespace-free rendering renderT, which is the formal content of
"clean changes only formatting". -/

def escChar (c : Char) : List Char :=
  if c == '"' then ['\\', '"']
  else if c == '\\' then ['\\', '\\']
  else if c == '\n' then ['\\', 'n']
  else if c == '\t' then ['\\', 't']
  else if c == '\r' then ['\\', 'r']
  else [c]

def escString (s : String) : List Char :=
  '"' :: (s.data.map escChar).flatten ++ ['"']

def natCharsAux : Nat → Nat → List Char → List Char
  | 0, _, acc => acc
  | fuel + 1, n, acc =>
    if n < 10 then Char.ofNat (48 + n) :: acc
    else natCharsAux fuel (n / 10) (Char.ofNat (48 + n % 10) :: acc)

def natChars (n : Nat) : List Char := natCharsAux (n + 1) n []

/-- Decimal rendering of a Python int as json.dumps prints it. -/
def intChars : Int → List Char
  | Int.ofNat n => natChars n
  | Int.negSucc n => '-' :: natChars (n + 1)

def indChars (n : Nat) : List Char := List.replicate n ' '

def nullTok : List Char := ['n', 'u', 'l', 'l']
def trueTok : List Char := ['t', 'r', 'u', 'e']
def falseTok : List Char := ['f', 'a', 'l', 's', 'e']

mutual

/-- json.dumps(value) with the default separators (", " and ": "). -/
def renderPy : Json → List Char
  | .null => nullTok
  | .bool true => trueTok
  | .bool false => falseTok
  | .num n => intChars n
  | .str s => escString s
  | .arr .nil => ['[', ']']
  | .arr (.cons x xs) => '[' :: renderPy x ++ renderPyList xs ++ [']']
  | .obj .nil => ['\x7b', '\x7d']
  | .obj (.cons k v fs) =>
    '\x7b' :: escString k ++ ':' :: ' ' :: renderPy v ++ renderPyFields fs ++ ['\x7d']

def renderPyList : JsonList → List Char
  | .nil => []
  | .cons x xs => ',' :: ' ' :: renderPy x ++ renderPyList xs

def renderPyFields : JsonFields → List Char
  | .nil => []
  | .cons k v fs =>
    ',' :: ' ' :: escString k ++ ':' :: ' ' :: renderPy v ++ renderPyFields fs

end

mutual

/-- json.dumps(value, indent=2), rendered with its closing bracket at
indentation width d. -/
def renderI (d : Nat) : Json → List Char
  | .null => nullTok
  | .bool true => trueTok
  | .bool false => falseTok
  | .num n => intChars n
  | .str s => escString s
  | .arr .nil => ['[', ']']
  | .arr (.cons x xs) =>
    '[' :: '\n' :: indChars (d + 2) ++ renderI (d + 2) x ++ renderIList (d + 2) xs
      ++ '\n' :: indChars d ++ [']']
  | .obj .nil => ['\x7b', '\x7d']
  | .obj (.cons k v fs) =>
    '\x7b' :: '\n' :: indChars (d + 2) ++ escString k ++ ':' :: ' ' :: renderI (d + 2) v
      ++ renderIFields (d + 2) fs ++ '\n' :: indChars d ++ ['\x7d']

def renderIList (d : Nat) : JsonList → List Char
  | .nil => []
  | .cons x xs => ',' :: '\n' :: indChars d ++ renderI d x ++ renderIList d xs

def renderIFields (d : Nat) : JsonFields → List Char
  | .nil => []
  | .cons k v fs =>
    ',' :: '\n' :: indChars d ++ escString k ++ ':' :: ' ' :: renderI d v
      ++ renderIFields d fs

end

mutual

/-- The whitespace-free rendering both output forms strip to. -/
def renderT : Json → List Char
  | .null => nullTok
  | .bool true => trueTok
  | .bool false => falseTok
  | .num n => intChars n
  | .str s => escString s
  | .arr .nil => ['[', ']']
  | .arr (.cons x xs) => '[' :: renderT x ++ renderTList xs ++ [']']
  | .obj .nil => ['\x7b', '\x7d']
  | .obj (.cons k v fs) =>
    '\x7b' :: escString k ++ ':' :: renderT v ++ renderTFields fs ++ ['\x7d']

def renderTList : JsonList → List Char
  | .nil => []
  | .cons x xs => ',' :: renderT x ++ renderTList xs

def renderTFields : JsonFields → List Char
  | .nil => []
  | .cons k v fs => ',' :: escString k ++ ':' :: renderT v ++ renderTFields fs

end

/-- JSON whitespace, as it can occur in json.dumps output. -/
def wsOut (c : Char) : Bool :=
  c == ' ' || c == '\n' || c == '\t' || c == '\r'

/-- Delete whitespace outside string literals.  The two flags track
whether the scan is inside a string literal and whether the previous
in-string character was an unconsumed backslash. -/
def stripAux : Bool → Bool → List Char → List Char
  | _, _, [] => []
  | false, _, c :: cs =>
    if c == '"' then c :: stripAux true false cs
    else if wsOut c then stripAux false false cs
    else c :: stripAux false false cs
  | true, false, c :: cs =>
    if c == '\\' then c :: stripAux true true cs
    else if c == '"' then c :: stripAux false false cs
    else c :: stripAux true false cs
  | true, true, c :: cs => c :: stripAux true false cs

def stripJsonWs (s : String) : String := String.mk (stripAux false false s.data)

theorem wsOut_ne_quote (c : Char) (h : wsOut c = true) : (c == '"') = false := by
  cases hc : c == '"'
  · rfl
  · have hce : c = '"' := beq_iff_eq.mp hc
    rw [hce] at h
    exact absurd h (by decide)

theorem stripAux_tok (l cs : List Char)
    (h : ∀ c ∈ l, (c == '"') = false ∧ wsOut c = false) :
    stripAux false false (l ++ cs) = l ++ stripAux false false cs := by
  induction l with
  | nil => rfl
  | cons c l ih =>
    have hc := h c (List.mem_cons_self c l)
    rw [List.cons_append, List.cons_append]
    show stripAux false false (c :: (l ++ cs)) = _
    rw [stripAux, if_neg, if_neg]
    · rw [ih (fun x hx => h x (List.mem_cons_of_mem c hx))]
    · simp [hc.2]
    · simp [hc.1]

theorem stripAux_ws (l cs : List Char) (h : ∀ c ∈ l, wsOut c = true) :
    stripAux false false (l ++ cs) = stripAux false false cs := by
  induction l with
  | nil => rfl
  | cons c l ih =>
    have hc := h c (List.mem_cons_self c l)
    rw [List.cons_append]
    show stripAux false false (c :: (l ++ cs)) = _
    rw [stripAux, if_neg, if_pos]
    · exact ih (fun x hx => h x (List.mem_cons_of_mem c hx))
    · simp [hc]
    · simp [wsOut_ne_quote c hc]

theorem stripAux_ind (d : Nat) (cs : List Char) :
    stripAux false false (indChars d ++ cs) = stripAux false false cs :=
  stripAux_ws (indChars d) cs (by
    intro c hc
    rw [indChars, List.mem_replicate] at hc
    rw [hc.2]
    rfl)

theorem stripAux_escChar (c : Char) (cs : List Char) :
    stripAux true false (escChar c ++ cs) = escChar c ++ stripAux true false cs := by
  unfold escChar
  split_ifs with h1 h2 h3 h4 h5
  · rfl
  · rfl
  · rfl
  · rfl
  · rfl
  · show stripAux true false (c :: cs) = c :: stripAux true false cs
    rw [stripAux, if_neg, if_neg]
    · simp [h1]
    · simp [h2]

theorem stripAux_escBody (l : List Char) (cs : List Char) :
    stripAux true false ((l.map escChar).flatten ++ cs) =
      (l.map escChar).flatten ++ stripAux true false cs := by
  induction l with
  | nil => rfl
  | cons c l ih =>
    simp only [List.map_cons, List.flatten_cons, List.append_assoc]
    rw [stripAux_escChar, ih]

theorem stripAux_escString (s : String) (cs : List Char) :
    stripAux false false (escString s ++ cs) =
      escString s ++ stripAux false false cs := by
  unfold escString
  simp only [List.cons_append, List.append_assoc]
  calc stripAux false false
        ('"' :: ((s.data.map escChar).flatten ++ (['"'] ++ cs)))
      = '"' :: stripAux true false
          ((s.data.map escChar).flatten ++ (['"'] ++ cs)) := rfl
    _ = '"' :: ((s.data.map escChar).flatten
          ++ stripAux true false (['"'] ++ cs)) := by rw [stripAux_escBody]
    _ = '"' :: ((s.data.map escChar).flatten
          ++ ('"' :: stripAux false false cs)) := rfl

theorem digitChar_ok (d : Nat) (hd : d < 10) :
    ((Char.ofNat (48 + d)) == '"') = false ∧ wsOut (Char.ofNat (48 + d)) = false := by
  interval_cases d <;> exact ⟨by decide, by decide⟩

theorem natCharsAux_ok (fuel : Nat) : ∀ n acc,
    (∀ c ∈ acc, (c == '"') = false ∧ wsOut c = false) →
    ∀ c ∈ natCharsAux fuel n acc, (c == '"') = false ∧ wsOut c = false := by
  induction fuel with
  | zero => intro n acc hacc c hc; exact hacc c hc
  | succ fuel ih =>
    intro n acc hacc c hc
    rw [natCharsAux] at hc
    by_cases hn : n < 10
    · rw [if_pos hn] at hc
      rcases List.mem_cons.mp hc with h | h
      · rw [h]; exact digitChar_ok n hn
      · exact hacc c h
    · rw [if_neg hn] at hc
      refine ih (n / 10) _ ?_ c hc
      intro x hx
      rcases List.mem_cons.mp hx with h | h
      · rw [h]; exact digitChar_ok (n % 10) (Nat.mod_lt n (by omega))
      · exact hacc x h

theorem intChars_ok (n : Int) :
    ∀ c ∈ intChars n, (c == '"') = false ∧ wsOut c = false := by
  cases n with
  | ofNat m =>
    intro c hc
    exact natCharsAux_ok (m + 1) m []
      (by intro x hx; exact absurd hx (List.not_mem_nil x)) c hc
  | negSucc m =>
    intro c hc
    rcases List.mem_cons.mp hc with h | h
    · rw [h]; exact ⟨by decide, by decide⟩
    · exact natCharsAux_ok (m + 2) (m + 1) []
        (by intro x hx; exact absurd hx (List.not_mem_nil x)) c h

theorem stripAux_num (n : Int) (cs : List Char) :
    stripAux false false (intChars n ++ cs) =
      intChars n ++ stripAux false false cs :=
  stripAux_tok (intChars n) cs (intChars_ok n)

mutual

theorem stripPy_json (j : Json) (cs : List Char) :
    stripAux false false (renderPy j ++ cs) = renderT j ++ stripAux false false cs := by
  cases j with
  | null => exact stripAux_tok _ cs (by decide)
  | bool b => cases b <;> exact stripAux_tok _ cs (by decide)
  | num n => exact stripAux_num n cs
  | str s => exact stripAux_escString s cs
  | arr xs =>
    cases xs with
    | nil => exact stripAux_tok _ cs (by decide)
    | cons x tl =>
      simp only [renderPy, renderT, List.cons_append, List.append_assoc,
        List.singleton_append]
      calc stripAux false false
            ('[' :: (renderPy x ++ (renderPyList tl ++ (']' :: cs))))
          = '[' :: stripAux false false
              (renderPy x ++ (renderPyList tl ++ (']' :: cs))) := rfl
        _ = '[' :: (renderT x ++ stripAux false false
              (renderPyList tl ++ (']' :: cs))) := by rw [stripPy_json x]
        _ = '[' :: (renderT x ++ (renderTList tl
              ++ stripAux false false (']' :: cs))) := by rw [stripPy_list tl]
        _ = '[' :: (renderT x ++ (renderTList tl
              ++ (']' :: stripAux false false cs))) := rfl
  | obj fs =>
    cases fs with
    | nil => exact stripAux_tok _ cs (by decide)
    | cons k v tl =>
      simp only [renderPy, renderT, List.cons_append, List.append_assoc,
        List.singleton_append]
      calc stripAux false false ('\x7b' :: (escString k ++ (':' :: (' ' ::
              (renderPy v ++ (renderPyFields tl ++ ('\x7d' :: cs)))))))
          = '\x7b' :: stripAux false false (escString k ++ (':' :: (' ' ::
              (renderPy v ++ (renderPyFields tl ++ ('\x7d' :: cs)))))) := rfl
        _ = '\x7b' :: (escString k ++ stripAux false false (':' :: (' ' ::
              (renderPy v ++ (renderPyFields tl ++ ('\x7d' :: cs)))))) := by
            rw [stripAux_escString]
        _ = '\x7b' :: (escString k ++ (':' :: stripAux false false
              (renderPy v ++ (renderPyFields tl ++ ('\x7d' :: cs))))) := rfl
        _ = '\x7b' :: (escString k ++ (':' :: (renderT v ++ stripAux false false
              (renderPyFields tl ++ ('\x7d' :: cs))))) := by rw [stripPy_json v]
        _ = '\x7b' :: (escString k ++ (':' :: (renderT v ++ (renderTFields tl
              ++ stripAux false false ('\x7d' :: cs))))) := by rw [stripPy_fields tl]
        _ = '\x7b' :: (escString k ++ (':' :: (renderT v ++ (renderTFields tl
              ++ ('\x7d' :: stripAux false false cs))))) := rfl

theorem stripPy_list (xs : JsonList) (cs : List Char) :
    stripAux false false (renderPyList xs ++ cs) =
      renderTList xs ++ stripAux false false cs := by
  cases xs with
  | nil => rfl
  | cons x tl =>
    simp only [renderPyList, renderTList, List.cons_append, List.append_assoc]
    calc stripAux false false (',' :: (' ' :: (renderPy x ++ (renderPyList tl ++ cs))))
        = ',' :: stripAux false false (renderPy x ++ (renderPyList tl ++ cs)) := rfl
      _ = ',' :: (renderT x ++ stripAux false false (renderPyList tl ++ cs)) := by
          rw [stripPy_json x]
      _ = ',' :: (renderT x ++ (renderTList tl ++ stripAux false false cs)) := by
          rw [stripPy_list tl]

theorem stripPy_fields (fs : JsonFields) (cs : List Char) :
    stripAux false false (renderPyFields fs ++ cs) =
      renderTFields fs ++ stripAux false false cs := by
  cases fs with
  | nil => rfl
  | cons k v tl =>
    simp only [renderPyFields, renderTFields, List.cons_append, List.append_assoc]
    calc stripAux false false (',' :: (' ' :: (escString k ++ (':' :: (' ' ::
            (renderPy v ++ (renderPyFields tl ++ cs)))))))
        = ',' :: stripAux false false (escString k ++ (':' :: (' ' ::
            (renderPy v ++ (renderPyFields tl ++ cs))))) := rfl
      _ = ',' :: (escString k ++ stripAux false false (':' :: (' ' ::
            (renderPy v ++ (renderPyFields tl ++ cs))))) := by
          rw [stripAux_escString]
      _ = ',' :: (escString k ++ (':' :: stripAux false false
            (renderPy v ++ (renderPyFields tl ++ cs)))) := rfl
      _ = ',' :: (escString k ++ (':' :: (renderT v ++ stripAux false false
            (renderPyFields tl ++ cs)))) := by rw [stripPy_json v]
      _ = ',' :: (escString k ++ (':' :: (renderT v ++ (renderTFields tl
            ++ stripAux false false cs)))) := by rw [stripPy_fields tl]

end

mutual

theorem stripI_json (d : Nat) (j : Json) (cs : List Char) :
    stripAux false false (renderI d j ++ cs) = renderT j ++ stripAux false false cs := by
  cases j with
  | null => simp only [renderI]; exact stripAux_tok _ cs (by decide)
  | bool b => cases b <;> simp only [renderI] <;> exact stripAux_tok _ cs (by decide)
  | num n => exact stripAux_num n cs
  | str s => exact stripAux_escString s cs
  | arr xs =>
    cases xs with
    | nil => simp only [renderI]; exact stripAux_tok _ cs (by decide)
    | cons x tl =>
      simp only [renderI, renderT, List.cons_append, List.append_assoc,
        List.singleton_append]
      calc stripAux false false ('[' :: ('\n' :: (indChars (d + 2) ++
              (renderI (d + 2) x ++ (renderIList (d + 2) tl ++
                ('\n' :: (indChars d ++ (']' :: cs))))))))
          = '[' :: stripAux false false (indChars (d + 2) ++
              (renderI (d + 2) x ++ (renderIList (d + 2) tl ++
                ('\n' :: (indChars d ++ (']' :: cs)))))) := rfl
        _ = '[' :: stripAux false false
              (renderI (d + 2) x ++ (renderIList (d + 2) tl ++
                ('\n' :: (indChars d ++ (']' :: cs))))) := by rw [stripAux_ind]
        _ = '[' :: (renderT x ++ stripAux false false
              (renderIList (d + 2) tl ++
                ('\n' :: (indChars d ++ (']' :: cs))))) := by rw [stripI_json (d + 2) x]
        _ = '[' :: (renderT x ++ (renderTList tl ++ stripAux false false
              ('\n' :: (indChars d ++ (']' :: cs))))) := by rw [stripI_list (d + 2) tl]
        _ = '[' :: (renderT x ++ (renderTList tl ++ stripAux false false
              (indChars d ++ (']' :: cs)))) := rfl
        _ = '[' :: (renderT x ++ (renderTList tl ++ stripAux false false
              (']' :: cs))) := by rw [stripAux_ind]
        _ = '[' :: (renderT x ++ (renderTList tl ++
              (']' :: stripAux false false cs))) := rfl
  | obj fs =>
    cases fs with
    | nil => simp only [renderI]; exact stripAux_tok _ cs (by decide)
    | cons k v tl =>
      simp only [renderI, renderT, List.cons_append, List.append_assoc,
        List.singleton_append]
      calc stripAux false false ('\x7b' :: ('\n' :: (indChars (d + 2) ++
              (escString k ++ (':' :: (' ' :: (renderI (d + 2) v ++
                (renderIFields (d + 2) tl ++
                  ('\n' :: (indChars d ++ ('\x7d' :: cs)))))))))))
          = '\x7b' :: stripAux false false (indChars (d + 2) ++
              (escString k ++ (':' :: (' ' :: (renderI (d + 2) v ++
                (renderIFields (d + 2) tl ++
                  ('\n' :: (indChars d ++ ('\x7d' :: cs))))))))) := rfl
        _ = '\x7b' :: stripAux false false
              (escString k ++ (':' :: (' ' :: (renderI (d + 2) v ++
                (renderIFields (d + 2) tl ++
                  ('\n' :: (indChars d ++ ('\x7d' :: cs)))))))) := by rw [stripAux_ind]
        _ = '\x7b' :: (escString k ++ stripAux false false
              (':' :: (' ' :: (renderI (d + 2) v ++
                (renderIFields (d + 2) tl ++
                  ('\n' :: (indChars d ++ ('\x7d' :: cs)))))))) := by
            rw [stripAux_escString]
        _ = '\x7b' :: (escString k ++ (':' :: stripAux false false
              (renderI (d + 2) v ++ (renderIFields (d + 2) tl ++
                ('\n' :: (indChars d ++ ('\x7d' :: cs))))))) := rfl
        _ = '\x7b' :: (escString k ++ (':' :: (renderT v ++ stripAux false false
              (renderIFields (d + 2) tl ++
                ('\n' :: (indChars d ++ ('\x7d' :: cs))))))) := by
            rw [stripI_json (d + 2) v]
        _ = '\x7b' :: (escString k ++ (':' :: (renderT v ++ (renderTFields tl
              ++ stripAux false false
                ('\n' :: (indChars d ++ ('\x7d' :: cs))))))) := by
            rw [stripI_fields (d + 2) tl]
        _ = '\x7b' :: (escString k ++ (':' :: (renderT v ++ (renderTFields tl
              ++ stripAux false false (indChars d ++ ('\x7d' :: cs)))))) := rfl
        _ = '\x7b' :: (escString k ++ (':' :: (renderT v ++ (renderTFields tl
              ++ stripAux false false ('\x7d' :: cs))))) := by rw [stripAux_ind]
        _ = '\x7b' :: (escString k ++ (':' :: (renderT v ++ (renderTFields tl
              ++ ('\x7d' :: stripAux false false cs))))) := rfl

theorem stripI_list (d : Nat) (xs : JsonList) (cs : List Char) :
    stripAux false false (renderIList d xs ++ cs) =
      renderTList xs ++ stripAux false false cs := by
  cases xs with
  | nil => rfl
  | cons x tl =>
    simp only [renderIList, renderTList, List.cons_append, List.append_assoc]
    calc stripAux false false (',' :: ('\n' :: (indChars d ++
            (renderI d x ++ (renderIList d tl ++ cs)))))
        = ',' :: stripAux false false (indChars d ++
            (renderI d x ++ (renderIList d tl ++ cs))) := rfl
      _ = ',' :: stripAux false false
            (renderI d x ++ (renderIList d tl ++ cs)) := by rw [stripAux_ind]
      _ = ',' :: (renderT x ++ stripAux false false
            (renderIList d tl ++ cs)) := by rw [stripI_json d x]
      _ = ',' :: (renderT x ++ (renderTList tl ++ stripAux false false cs)) := by
          rw [stripI_list d tl]

theorem stripI_fields (d : Nat) (fs : JsonFields) (cs : List Char) :
    stripAux false false (renderIFields d fs ++ cs) =
      renderTFields fs ++ stripAux false false cs := by
  cases fs with
  | nil => rfl
  | cons k v tl =>
    simp only [renderIFields, renderTFields, List.cons_append, List.append_assoc]
    calc stripAux false false (',' :: ('\n' :: (indChars d ++ (escString k ++
            (':' :: (' ' :: (renderI d v ++ (renderIFields d tl ++ cs))))))))
        = ',' :: stripAux false false (indChars d ++ (escString k ++
            (':' :: (' ' :: (renderI d v ++ (renderIFields d tl ++ cs)))))) := rfl
      _ = ',' :: stripAux false false (escString k ++
            (':' :: (' ' :: (renderI d v ++ (renderIFields d tl ++ cs))))) := by
          rw [stripAux_ind]
      _ = ',' :: (escString k ++ stripAux false false
            (':' :: (' ' :: (renderI d v ++ (renderIFields d tl ++ cs))))) := by
          rw [stripAux_escString]
      _ = ',' :: (escString k ++ (':' :: stripAux false false
            (renderI d v ++ (renderIFields d tl ++ cs)))) := rfl
      _ = ',' :: (escString k ++ (':' :: (renderT v ++ stripAux false false
            (renderIFields d tl ++ cs)))) := by rw [stripI_json d v]
      _ = ',' :: (escString k ++ (':' :: (renderT v ++ (renderTFields tl
            ++ stripAux false false cs)))) := by rw [stripI_fields d tl]

end

/-- The JSON object json.dumps serializes for all_results: one field per
batch entry, in insertion order. -/
def batchFields : List (String × AnalysisResult) → JsonFields
  | [] => JsonFields.nil
  | (k, r) :: rest => JsonFields.cons k (resultJson r) (batchFields rest)

def batchToJson (d : List (String × AnalysisResult)) : Json :=
  Json.obj (batchFields d)

/-- json.dumps(all_results), the clean-output branch of line 369. -/
def jsonDumps (j : Json) : String := String.mk (renderPy j)

/-- json.dumps(all_results, indent=2), the default branch of line 371. -/
def jsonDumpsIndent (j : Json) : String := String.mk (renderI 0 j)

/-- Lines 367-371: the string printed to standard output for a finished
batch result - compact when clean_output is set, indent=2 otherwise. -/
def wallet_output (clean : Bool) (results : List (String × AnalysisResult)) : String :=
  if clean then jsonDumps (batchToJson results)
  else jsonDumpsIndent (batchToJson results)

example : wallet_output true [("a", AnalysisResult.error "x")] =
    "\x7b\"a\": \x7b\"error\": \"x\"\x7d\x7d" := by decide

example : wallet_output false [("a", AnalysisResult.error "x")] =
    "\x7b\n  \"a\": \x7b\n    \"error\": \"x\"\n  \x7d\n\x7d" := by decide

/-- Claim C9: for one identical batch result, the clean output and the
default output differ only in whitespace outside string literals - after
deleting that whitespace the two emitted strings are identical, so clean
neither removes nor adds any field or value. -/
theorem clean_flag_formatting_only (results : List (String × AnalysisResult)) :
    stripJsonWs (wallet_output true results) =
      stripJsonWs (wallet_output false results) := by
  have h1 := stripPy_json (batchToJson results) []
  have h2 := stripI_json 0 (batchToJson results) []
  rw [List.append_nil] at h1 h2
  have he : stripAux false false ([] : List Char) = [] := rfl
  rw [he, List.append_nil] at h1 h2
  show String.mk (stripAux false false (renderPy (batchToJson results))) =
    String.mk (stripAux false false (renderI 0 (batchToJson results)))
  rw [h1, h2]
